import Mathlib

/-!
Verification of the Regulatory-Assessment-Impact retrieval assistant.

This file is a shallow embedding, in Lean 4, of the core of the repository:
the chunker (`utils_ingest.split_into_chunks`, `rag._split_into_chunks`), the
version manifest registration step of `ingest.scan_and_index`, the dense store
(`vectorstore_faiss.FAISSStore`), the TF-IDF embedder guard
(`rag.TFIDFEmbedder.transform`), the hybrid retriever (`RAGPipeline.retrieve`)
and the grounded answer assembler (`RAGPipeline.answer`).

Modelling conventions:
- Python strings are Lean `String`s; `str.split()` is `pysplit`,
  `" ".join(s.split())` is `normWS`, slicing `s[:n]` is `pyTake`,
  `pat in s` is `strContains`.
- External numeric libraries (faiss inner products, rank_bm25 scores, the
  fitted sklearn vectorizer) compute floating-point scores whose exact values
  the claims do not depend on; they are abstracted as integer-valued score
  functions passed in as parameters.  `np.argsort(-scores)` is modelled by
  `npArgsortDesc`, a sort of the index range by descending score.
- Fallible Python code (raising) is modelled with `Except String`; a raised
  exception is `.error`.
- Dict-shaped JSON values from the generation backend are modelled by
  `GenData` with `Option` fields (a missing key is `none`); backend output
  that fails `json.loads` is `GenOut.notJson raw`, output that parses to a
  JSON value that is not an object (on which `.get` raises `AttributeError`)
  is `GenOut.nonObj`, and object fields whose ill-typing changes control flow
  (raises) carry explicit non-schema constructors (`JStr.nonStr`,
  `CitsVal.nonArr`, `CitEntry.nonDict`).
-/

/-- Helper for `pysplit`: scan the characters, accumulating the current token
reversed in `cur`. -/
def pysplitAux (cur : List Char) : List Char → List String
  | [] => if cur = [] then [] else [String.mk cur.reverse]
  | c :: rest =>
      if c.isWhitespace then
        if cur = [] then pysplitAux [] rest
        else String.mk cur.reverse :: pysplitAux [] rest
      else pysplitAux (c :: cur) rest

/-- Python `s.split()`: split on whitespace runs, dropping empty pieces. -/
def pysplit (s : String) : List String :=
  pysplitAux [] s.data

/-- Python `sep.join(l)`. -/
def joinSep (sep : String) : List String → String
  | [] => ""
  | [x] => x
  | x :: y :: rest => x ++ sep ++ joinSep sep (y :: rest)

/-- Python `" ".join(s.split())`: collapse internal whitespace. -/
def normWS (s : String) : String :=
  joinSep " " (pysplit s)

/-- Drop leading whitespace characters. -/
def dropLeadWS : List Char → List Char
  | [] => []
  | c :: t => if c.isWhitespace then dropLeadWS t else c :: t

/-- Python `s.strip()`. -/
def pyStrip (s : String) : String :=
  String.mk (dropLeadWS (dropLeadWS s.data.reverse).reverse)

/-- Python `s.lower()`. -/
def strLower (s : String) : String :=
  String.mk (s.data.map Char.toLower)

/-- Python slicing `s[:n]` on a string. -/
def pyTake (n : Nat) (s : String) : String :=
  String.mk (s.data.take n)

/-- Does the character list start with `pat`? -/
def listStartsWith : List Char → List Char → Bool
  | _, [] => true
  | [], _ :: _ => false
  | a :: s, b :: p => a == b && listStartsWith s p

/-- Does some tail of `s` start with `pat`? -/
def listHasSub (pat : List Char) : List Char → Bool
  | [] => listStartsWith [] pat
  | c :: t => listStartsWith (c :: t) pat || listHasSub pat t

/-- Python `pat in s` substring test. -/
def strContains (s pat : String) : Bool :=
  listHasSub pat.data s.data

/-- The characters after the last `/` of the list (the whole list when no
`/` occurs). -/
def lastSegAux (cur : List Char) : List Char → List Char
  | [] => cur.reverse
  | c :: t => if c == '/' then lastSegAux [] t else lastSegAux (c :: cur) t

/-- `rag._short_name`: `path.rsplit("/", 1)[-1]` for non-empty `path`,
else `""`. -/
def _short_name (path : String) : String :=
  if path = "" then "" else String.mk (lastSegAux [] path.data)

/-! ## Chunker (`utils_ingest.split_into_chunks`, `rag._split_into_chunks`)

The source loop is

    chunks, i = [], 0
    while i < len(words):
        chunk = words[i:i+max_tokens]
        if chunk:
            chunks.append(" ".join(chunk))
        i += max(1, max_tokens - overlap)

`chunkWindows` is that loop at the token level (each appended chunk kept as
its token window); the two `split` functions join each window with spaces.
The loop terminates because the step `max 1 (max_tokens - overlap)` is at
least 1, which is exactly the termination measure used below.  Python's
`max(1, max_tokens - overlap)` on possibly negative ints equals Lean's
`max 1 (max_tokens - overlap)` on truncated `Nat` subtraction. -/
def chunkWindows (words : List String) (max_tokens overlap : Nat) (i : Nat) :
    List (List String) :=
  if _h : i < words.length then
    let chunk := (words.drop i).take max_tokens
    let rest := chunkWindows words max_tokens overlap (i + max 1 (max_tokens - overlap))
    if chunk = [] then rest else chunk :: rest
  else []
termination_by words.length - i
decreasing_by
  have h1 : 1 ≤ max 1 (max_tokens - overlap) := Nat.le_max_left _ _
  omega

/-- `utils_ingest.split_into_chunks` (defaults 420 / 60). -/
def split_into_chunks (text : String) (max_tokens : Nat := 420) (overlap : Nat := 60) :
    List String :=
  (chunkWindows (pysplit text) max_tokens overlap 0).map (fun c => joinSep " " c)

/-- `rag._split_into_chunks` (defaults 400 / 60): same algorithm. -/
def _split_into_chunks (text : String) (max_tokens : Nat := 400) (overlap : Nat := 60) :
    List String :=
  (chunkWindows (pysplit text) max_tokens overlap 0).map (fun c => joinSep " " c)

/-! ## Version manifest (`ingest.scan_and_index`, per-source registration)

The per-source registration step of `scan_and_index` (src/ingest.py lines
113-127): hash the full text, look the hash up among the manifest rows loaded
for that `doc_id`, and append a new manifest row only when the hash is unseen.
`hash` abstracts `utils_ingest.sha256_text` (hashlib, an external library);
only its determinism — automatic for any Lean function — matters to the
claims.  The manifest is the list of on-disk rows; `++ [rec]` models the
append, and a second `scanRegister` on the result models a re-run (which
reloads the manifest). -/
structure ManifestRec where
  doc_id : String
  version_hash : String
  created_at : String
  source_kind : String
  path : String
deriving DecidableEq

/-- `vhash in manifest.get(doc_id, {})`: some loaded row for `doc_id` already
carries this content hash. -/
def hasVersion (manifest : List ManifestRec) (doc_id vhash : String) : Bool :=
  manifest.any (fun r => r.doc_id == doc_id && r.version_hash == vhash)

/-- One file-source iteration of `scan_and_index`, restricted to the manifest
bookkeeping: returns the manifest after the run and `is_new`. -/
def scanRegister (hash : String → String) (manifest : List ManifestRec)
    (source_name full_text now path : String) : List ManifestRec × Bool :=
  let vhash := hash full_text
  let is_new := !(hasVersion manifest source_name vhash)
  let rec_meta : ManifestRec :=
    { doc_id := source_name, version_hash := vhash, created_at := now,
      source_kind := "file", path := path }
  (if is_new then manifest ++ [rec_meta] else manifest, is_new)

/-! ## Dense store (`vectorstore_faiss.FAISSStore`)

A metadata row of `faiss_meta.jsonl` (the chunk records written by
`ingest.scan_and_index`). -/
structure Meta where
  doc_id : String
  version_hash : String
  chunk_id : String
  page : Int
  text : String
  source : String
  clause : Option String
deriving DecidableEq

instance : Inhabited Meta := ⟨⟨"", "", "", 0, "", "", none⟩⟩

/-- The `(doc_id, version_hash, chunk_id)` key of a metadata row. -/
def chunkKey (m : Meta) : String × String × String :=
  (m.doc_id, m.version_hash, m.chunk_id)

/-- A `search` hit: a copied metadata row with its `"score"` field. -/
structure SHit where
  meta : Meta
  score : Int
deriving DecidableEq

instance : Inhabited SHit := ⟨⟨default, 0⟩⟩

/-- A `retrieve` hit: a dense hit merged with its `"_bm25"` field. -/
structure RHit where
  meta : Meta
  score : Int
  bm25 : Int
deriving DecidableEq

/-- `FAISSStore._load_meta`: `none` models a missing `faiss_meta.jsonl`
(return `[]`); otherwise each line is stripped, blank lines are skipped and
lines on which `json.loads` fails (`parse` returns `none`) are skipped. -/
def FAISSStore.loadMeta (parse : String → Option Meta) (metaFile : Option (List String)) :
    List Meta :=
  match metaFile with
  | none => []
  | some lines =>
      lines.filterMap (fun line =>
        let l := pyStrip line
        if l = "" then none else parse l)

/-- Insert index `i` into a descending-sorted index list, after every index
whose score is at least `scores[i]` (so equal scores keep earlier-inserted
indices first). -/
def insertDesc (scores : List Int) (i : Nat) : List Nat → List Nat
  | [] => [i]
  | j :: rest =>
      if scores.getD j 0 < scores.getD i 0 then i :: j :: rest
      else j :: insertDesc scores i rest

/-- Model of `np.argsort(-scores)`: the indices `0 .. scores.length - 1`
ordered by descending score.  numpy's default sort does not document its tie
order; this model is the stable order (ties keep the original index order). -/
def npArgsortDesc (scores : List Int) : List Nat :=
  (List.range scores.length).foldl (fun acc i => insertDesc scores i acc) []

/-- The loaded faiss index: it has its own row count `ntotal` (which need not
agree with the length of the separately loaded metadata), and the
inner-product score the query row gets against each of its rows is abstracted
as `score`. -/
structure FaissIndex where
  ntotal : Nat
  score : Nat → Int

/-- The result-collection loop of `search`:
`for i, sc in zip(idxs, scores): meta = self._meta_cache[i].copy(); ...`.
Looking a returned row index up in a metadata cache that is shorter than the
index raises an uncaught `IndexError`. -/
def collectHits (metaCache : List Meta) (scores : List Int) :
    List Nat → Except String (List SHit)
  | [] => Except.ok []
  | i :: rest =>
      if i < metaCache.length then
        match collectHits metaCache scores rest with
        | Except.error e => Except.error e
        | Except.ok out =>
            Except.ok ({ meta := metaCache[i]!, score := scores.getD i 0 } :: out)
      else Except.error "IndexError: list index out of range"

/-- `FAISSStore.search` after `_ensure_loaded`: `index` is the loaded faiss
index (`none` models a missing `index.faiss`); `metaCache` is the separately
loaded metadata.  If the index is missing or the metadata cache is empty the
result is `ok []`; otherwise faiss returns the best
`k = min top_k metaCache.length` of its `ntotal` rows by descending score
(when `k > ntotal` faiss pads with `-1` entries, which the source skips via
`if i < 0: continue` — equivalently they are simply absent here), and each
returned row index is looked up in the metadata cache, which raises
`IndexError` when the index holds more rows than the cache. -/
def FAISSStore.search (index : Option FaissIndex) (metaCache : List Meta)
    (top_k : Nat) : Except String (List SHit) :=
  match index with
  | none => Except.ok []
  | some idx =>
      if metaCache = [] then Except.ok []
      else
        let k := min top_k metaCache.length
        let scores := (List.range idx.ntotal).map idx.score
        let idxs := (npArgsortDesc scores).take k
        collectHits metaCache scores idxs

/-- On-disk and in-memory state of a `FAISSStore`: the persisted index file
(its vector rows), the persisted metadata file, and the two in-memory caches. -/
structure StoreState where
  index_file : Option (List (List ℚ))
  meta_file : Option (List Meta)
  index_mem : Option (List (List ℚ))
  meta_mem : Option (List Meta)
deriving DecidableEq

/-- `vectorstore_faiss._l2_normalize`: divide each row by its Euclidean norm
plus `1e-12`.  The norm (a float square root) is abstracted as the parameter
`norm`; only the row-count-preserving shape matters to the claims. -/
def _l2_normalize (norm : List ℚ → ℚ) (mat : List (List ℚ)) : List (List ℚ) :=
  mat.map (fun row => row.map (fun x => x / (norm row + 1 / 1000000000000)))

/-- `FAISSStore.build`: raise `ValueError` when the metadata length differs
from the number of vector rows (returned as `some errorMessage`, with the
state unchanged, since the Python code raises before any write); otherwise
normalize, persist index and metadata together, and refresh both caches. -/
def FAISSStore.build (norm : List ℚ → ℚ) (st : StoreState)
    (vectors : List (List ℚ)) (meta : List Meta) : StoreState × Option String :=
  if meta.length ≠ vectors.length then
    (st, some "meta length does not match vectors")
  else
    let vecs := _l2_normalize norm vectors
    ({ index_file := some vecs, meta_file := some meta,
       index_mem := some vecs, meta_mem := some meta }, none)

/-! ## TF-IDF embedder (`rag.TFIDFEmbedder`) -/

/-- The fitted vectorizer state (sklearn, external), abstracted as the
transform it induces on texts. -/
def VecState : Type := String → List Int

/-- `TFIDFEmbedder.transform`: raises `RuntimeError` when no fitted
vectorizer was loaded, otherwise transforms each text. -/
def TFIDFEmbedder.transform (vec : Option VecState) (texts : List String) :
    Except String (List (List Int)) :=
  match vec with
  | none => Except.error "TFIDF vectorizer not loaded; run ingest.py first."
  | some v => Except.ok (texts.map v)

/-! ## Query expansion (`rag._expand_query`) -/

def _TEMP_SYNONYMS : List String :=
  ["2–8 °C", "2 - 8 °C", "2 to 8 °C", "2-8 °C", "2-8C",
   "refrigerated", "cold chain", "controlled temperature",
   "storage and transportation", "transport", "shipping", "Section 24", "TGO 109"]

def _MALARIA_SYNONYMS : List String :=
  ["malaria", "malaria-endemic", "endemic region", "ineligib", "deferr",
   "period of ineligibility"]

def _DEFERRAL_SYNONYMS : List String :=
  ["deferral", "period of ineligibility", "ineligible", "donor eligibility",
   "exclusion", "contraindicated"]

/-- `list(dict.fromkeys(l))`: deduplicate keeping first occurrences. -/
def dedupFirst (seen : List String) : List String → List String
  | [] => []
  | x :: xs => if x ∈ seen then dedupFirst seen xs else x :: dedupFirst (x :: seen) xs

/-- `rag._expand_query`. -/
def _expand_query (q : String) : String :=
  let ql := strLower q
  let extra :=
    (if ["2–8", "2-8", "2 to 8", "refriger", "cold chain", "transport",
         "shipping", "storage"].any (fun k => strContains ql k)
     then _TEMP_SYNONYMS else []) ++
    (if strContains ql "malaria" || strContains ql "endemic"
     then _MALARIA_SYNONYMS else []) ++
    (if ["deferr", "ineligib", "exclusion", "eligib"].any (fun k => strContains ql k)
     then _DEFERRAL_SYNONYMS else [])
  if extra = [] then q
  else q ++ " " ++ joinSep " " ((dedupFirst [] extra).take 12)

/-! ## Hybrid retriever (`RAGPipeline.retrieve`) -/

/-- `RAGPipeline.retrieve`.  `vec` is the embedder state (`None` when
`tfidf_vectorizer.pkl` was never written); `index`/`metaCache` are the dense
store as in `FAISSStore.search`; `lex` abstracts `rank_bm25.BM25Okapi`: given
the candidate corpus and the tokenized expanded query it scores candidate
`i`.  The result is `Except`-valued because the body calls
`TFIDFEmbedder.transform` and `FAISSStore.search`, whose exceptions
propagate. -/
def RAGPipeline.retrieve (vec : Option VecState) (index : Option FaissIndex)
    (metaCache : List Meta) (lex : List String → List String → Nat → Int)
    (question : String) (top_k : Nat) : Except String (List RHit) :=
  match vec with
  | none => Except.ok []
  | some v =>
      let q_expanded := _expand_query question
      match TFIDFEmbedder.transform (some v) [q_expanded] with
      | Except.error e => Except.error e
      | Except.ok _qvec =>
          match FAISSStore.search index metaCache (top_k * 2) with
          | Except.error e => Except.error e
          | Except.ok dense_hits =>
              if dense_hits = [] then Except.ok []
              else
                let corpus := dense_hits.map (fun h => h.meta.text)
                let qtok := pysplit (strLower q_expanded)
                let scores := (List.range corpus.length).map (lex corpus qtok)
                let order := (npArgsortDesc scores).take top_k
                Except.ok (order.map (fun i =>
                  { meta := (dense_hits[i]!).meta, score := (dense_hits[i]!).score,
                    bm25 := scores.getD i 0 }))

/-! ## Grounded answer assembler (`RAGPipeline.answer`)

The generation backend returns an arbitrary string and `json.loads` an
arbitrary JSON value, so the parsed object's fields need not have their
schema types.  Fields are modelled at schema type except where a non-schema
value changes the program's control flow (raises an exception); those slots
carry explicit non-schema constructors with their Python truthiness:
`compliance_status` (a truthy non-string raises `AttributeError` at
`.strip()`), the `citations` value (a truthy non-list raises when iterated
as objects), each citation entry (a non-object raises at `c.get`) and a
citation's `source` (a truthy non-string raises inside `_short_name` at
`.rsplit`).  Values the code merely stores or truthiness-tests (rationale,
page, quote, risk/mitigation lists, summary) never have methods called on
them and are modelled at schema type.

A JSON value sitting in a string-typed slot. -/
inductive JStr where
  | str (s : String)
  | nonStr (truthy : Bool)
deriving DecidableEq

/-- A citation object inside the model JSON.  `none` is a missing key (or
JSON `null`, which `dict.get` also reports as `None`). -/
structure Citation where
  source : Option JStr
  page : Option Int
  quote : Option String
deriving DecidableEq

/-- An element of a JSON `citations` array: an object, or a non-object on
which `c.get("source")` raises `AttributeError`. -/
inductive CitEntry where
  | dict (c : Citation)
  | nonDict
deriving DecidableEq

/-- The JSON value of a `citations` key: an array, or a non-array value with
its truthiness (falsy ⇒ backfilled; truthy ⇒ iterating it as objects
raises). -/
inductive CitsVal where
  | arr (cs : List CitEntry)
  | nonArr (truthy : Bool)
deriving DecidableEq

/-- A generation-backend JSON object, with each schema key optional. -/
structure GenData where
  compliance_status : Option JStr
  rationale : Option String
  citations : Option CitsVal
  violations_or_risks : Option (List String)
  alternative_suggestions : Option (List String)
  summary_proposal : Option String
  human_supervision_required : Option Bool
deriving DecidableEq

/-- The generation backend's output, as seen by `answer` after `json.loads`:
either the text does not parse (`notJson raw` — the `except` branch), or it
parses to a JSON value that is not an object (`nonObj` — every subsequent
`data.get(...)` raises `AttributeError`), or it parses to an object. -/
inductive GenOut where
  | notJson (raw : String)
  | nonObj
  | obj (d : GenData)
deriving DecidableEq

/-- The final answer dict returned by `answer`.  `citations`,
`violations_or_risks`, `alternative_suggestions` and
`human_supervision_required` are always (re)assigned by the assembler;
the other fields keep whatever the parsed object held. -/
structure AnswerRecord where
  compliance_status : Option JStr
  rationale : Option String
  citations : List Citation
  violations_or_risks : List String
  alternative_suggestions : List String
  summary_proposal : Option String
  human_supervision_required : Bool
deriving DecidableEq

/-- A mechanically derived citation for passage `p`:
`{"source": _short_name(p["source"]), "page": p["page"],
  "quote": " ".join(p["text"].split())[:300]}`. -/
def citeOfPassage (p : RHit) : Citation :=
  { source := some (JStr.str (_short_name p.meta.source)), page := some p.meta.page,
    quote := some (pyTake 300 (normWS p.meta.text)) }

/-- `src = c.get("source") or first_src` followed by the `_short_name(src)`
dispatch: a falsy source (missing, `None`, `""`, falsy non-string) is
replaced by `first_src`; a truthy non-string survives the `or` and then
raises `AttributeError` inside `_short_name` at `path.rsplit`. -/
def srcResolve (first_src : String) (o : Option JStr) : Except String String :=
  match o with
  | none => Except.ok first_src
  | some (JStr.str s) => Except.ok (if s = "" then first_src else s)
  | some (JStr.nonStr truthy) =>
      if truthy then Except.error "AttributeError: source value has no rsplit method"
      else Except.ok first_src

/-- The per-citation normalisation loop body of `answer`: backfill a falsy or
placeholder source from the first passage, backfill a missing or falsy page,
and collapse/truncate a truthy quote to 400 characters.  Raises when the
source is a truthy non-string. -/
def normCitation (first_src : String) (first_page : Int) (c : Citation) :
    Except String Citation :=
  match srcResolve first_src c.source with
  | Except.error e => Except.error e
  | Except.ok src0 =>
      let src1 := if src0 = "doc" ∨ src0 = "" then first_src else src0
      let page1 : Option Int :=
        match c.page with
        | none => some first_page
        | some p => if p = 0 then some first_page else some p
      let quote1 : Option String :=
        match c.quote with
        | none => none
        | some q => if q = "" then some q else some (pyTake 400 (normWS q))
      Except.ok { source := some (JStr.str (_short_name src1)), page := page1,
                  quote := quote1 }

/-- The `for c in data["citations"]` loop: normalise each entry in order;
a non-object entry raises `AttributeError` at `c.get("source")`. -/
def normCitations (first_src : String) (first_page : Int) :
    List CitEntry → Except String (List Citation)
  | [] => Except.ok []
  | CitEntry.nonDict :: _ => Except.error "AttributeError: citation entry is not an object"
  | CitEntry.dict c :: rest =>
      match normCitation first_src first_page c with
      | Except.error e => Except.error e
      | Except.ok c1 =>
          match normCitations first_src first_page rest with
          | Except.error e => Except.error e
          | Except.ok cs1 => Except.ok (c1 :: cs1)

/-- The citation backfill/normalisation step of `answer`: a falsy
`citations` value (missing, `None`, `[]`, or any falsy non-array) is
replaced by mechanical citations from the top three passages; a truthy array
is normalised entry by entry; a truthy non-array raises when iterated as
objects (`TypeError` for non-iterables, `AttributeError` on the elements
otherwise — both uncaught). -/
def assembleCitations (passages : List RHit) (p0 : RHit) (cits : Option CitsVal) :
    Except String (List Citation) :=
  match cits with
  | none => Except.ok ((passages.take 3).map citeOfPassage)
  | some (CitsVal.arr []) => Except.ok ((passages.take 3).map citeOfPassage)
  | some (CitsVal.nonArr truthy) =>
      if truthy then
        Except.error "TypeError/AttributeError: citations is a truthy non-array"
      else Except.ok ((passages.take 3).map citeOfPassage)
  | some (CitsVal.arr (e :: es)) =>
      normCitations (_short_name p0.meta.source) p0.meta.page (e :: es)

/-- `(data.get("compliance_status") or "Unclear").strip()`: a missing or
falsy status falls back to `"Unclear"`; a truthy non-string raises
`AttributeError` at `.strip()`. -/
def statusStrip (o : Option JStr) : Except String String :=
  match o with
  | none => Except.ok (pyStrip "Unclear")
  | some (JStr.str s) => Except.ok (pyStrip (if s = "" then "Unclear" else s))
  | some (JStr.nonStr truthy) =>
      if truthy then Except.error "AttributeError: compliance_status has no strip method"
      else Except.ok (pyStrip "Unclear")

/-- The string `(status or "Unclear")` evaluates to on the status values
that can survive into a returned record (everything except a truthy
non-string, which instead raises before any record is built). -/
def statusOrUnclear (o : Option JStr) : String :=
  match o with
  | some (JStr.str s) => if s = "" then "Unclear" else s
  | _ => "Unclear"

/-- The cold-chain keyword trigger of `_backfill_risks_suggestions`. -/
def _temp_trigger (ql : String) : Bool :=
  ["2–8", "2-8", "2 to 8", "refriger", "cold chain", "transport",
   "shipping"].any (fun k => strContains ql k)

/-- The malaria keyword trigger of `_backfill_risks_suggestions`. -/
def _malaria_trigger (ql : String) : Bool :=
  strContains ql "malaria" || strContains ql "endemic"

/-- `RAGPipeline._backfill_risks_suggestions`: the keyword-triggered rule
table, returning `(risks, alts)`; generic singletons when no rule fired. -/
def _backfill_risks_suggestions (question : String) : List String × List String :=
  let q := strLower question
  let risks :=
    (if _temp_trigger q then
      ["Risk of temperature excursion during transport leading to product quality compromise.",
       "Potential non-compliance with storage/transport clauses if 2–8 °C cannot be maintained for full transit."]
     else []) ++
    (if _malaria_trigger q then
      ["Risk of transfusion-transmitted malaria if deferral/eligibility rules are not applied."]
     else [])
  let alts :=
    (if _temp_trigger q then
      ["Use a validated 2–8 °C shipper with lane qualification and pre-conditioned gel packs.",
       "Include a calibrated temperature logger and define acceptance criteria; review on receipt.",
       "Reduce transit time or split shipments; ensure monitored handover at each leg."]
     else []) ++
    (if _malaria_trigger q then
      ["Apply the specified deferral period or require negative testing per the cited appendix before acceptance."]
     else [])
  let risks :=
    if risks = [] then
      ["Evidence insufficient; risk of non-compliance if policy deviates from cited clauses."]
    else risks
  let alts :=
    if alts = [] then
      ["Escalate for human review and obtain written confirmation against the cited standard/appendix."]
    else alts
  (risks, alts)

/-- The safe fallback object `answer` synthesises when `json.loads` raises:
status `"Unclear"`, rationale `text[:600]`, mechanical citations from the top
four passages, empty risk/mitigation lists. -/
def fallbackData (passages : List RHit) (raw : String) : GenData :=
  { compliance_status := some (JStr.str "Unclear"),
    rationale := some (pyTake 600 raw),
    citations := some (CitsVal.arr ((passages.take 4).map
      (fun p => CitEntry.dict (citeOfPassage p)))),
    violations_or_risks := some [],
    alternative_suggestions := some [],
    summary_proposal := some "See grounded excerpts and consult a human reviewer.",
    human_supervision_required := some true }

/-- The normalisation tail of `answer` (everything after the `try/except`),
in source order: citation backfill/normalisation, risk/mitigation backfill,
then the supervision recomputation — each of the first and last step can
raise, and the citation step raises first. -/
def answerAssemble (passages : List RHit) (p0 : RHit) (question : String)
    (data0 : GenData) : Except String AnswerRecord :=
  match assembleCitations passages p0 data0.citations with
  | Except.error e => Except.error e
  | Except.ok citations1 =>
      let rf := _backfill_risks_suggestions question
      let risks1 :=
        match data0.violations_or_risks with
        | none => rf.1
        | some [] => rf.1
        | some (r :: rs) => r :: rs
      let alts1 :=
        match data0.alternative_suggestions with
        | none => rf.2
        | some [] => rf.2
        | some (a :: as_) => a :: as_
      match statusStrip data0.compliance_status with
      | Except.error e => Except.error e
      | Except.ok status =>
          Except.ok
            { compliance_status := data0.compliance_status,
              rationale := data0.rationale,
              citations := citations1,
              violations_or_risks := risks1,
              alternative_suggestions := alts1,
              summary_proposal := data0.summary_proposal,
              human_supervision_required := status ≠ "Compliant" }

/-- `RAGPipeline.answer`, parametrised by the result of
`self.retrieve(question, top_k)` (`passages`) and the outcome of
`json.loads(generate(prompt))` (`gen`); `format_prompt` and the backend call
itself are external and not modelled.  When `passages` is empty the backend
is never consulted (the `gen` argument is unused on that branch) and the
deterministic `Unclear` record is returned. -/
def RAGPipeline.answer (passages : List RHit) (question : String) (gen : GenOut) :
    Except String AnswerRecord :=
  match passages with
  | [] =>
      let rf := _backfill_risks_suggestions question
      Except.ok
        { compliance_status := some (JStr.str "Unclear"),
          rationale := some "No index or no matches. Ingest documents first.",
          citations := [],
          violations_or_risks := rf.1,
          alternative_suggestions := rf.2,
          summary_proposal := some "Ingest relevant documents and retry; see suggested mitigations.",
          human_supervision_required := true }
  | p0 :: _ =>
      match gen with
      | GenOut.nonObj => Except.error "AttributeError: parsed JSON value is not an object"
      | GenOut.notJson raw => answerAssemble passages p0 question (fallbackData passages raw)
      | GenOut.obj d => answerAssemble passages p0 question d

/-- Is this citation entry one the normalisation loop survives (an object
whose source is not a truthy non-string)? -/
def citEntryOk : CitEntry → Bool
  | CitEntry.dict c => c.source != some (JStr.nonStr true)
  | CitEntry.nonDict => false

/-- Is this `citations` value one the citation step survives: absent, falsy,
or an array of survivable entries? -/
def citsOk : Option CitsVal → Bool
  | none => true
  | some (CitsVal.arr cs) => cs.all citEntryOk
  | some (CitsVal.nonArr truthy) => !truthy
 
/-- Does `answer` survive this backend output (no uncaught exception on a
non-empty retrieval)?  Exactly: the output is not a JSON non-object, its
citations value is survivable, and its status is not a truthy non-string. -/
def genOk : GenOut → Bool
  | GenOut.notJson _ => true
  | GenOut.nonObj => false
  | GenOut.obj d => citsOk d.citations && (d.compliance_status != some (JStr.nonStr true))

/-- Decidable equality for `Except`, used to evaluate the model at concrete
inputs. -/
instance {ε α : Type} [DecidableEq ε] [DecidableEq α] : DecidableEq (Except ε α) :=
  fun a b =>
    match a, b with
    | Except.ok x, Except.ok y =>
        if h : x = y then isTrue (by rw [h])
        else isFalse (by intro he; cases he; exact h rfl)
    | Except.error x, Except.error y =>
        if h : x = y then isTrue (by rw [h])
        else isFalse (by intro he; cases he; exact h rfl)
    | Except.ok _, Except.error _ => isFalse (by intro he; cases he)
    | Except.error _, Except.ok _ => isFalse (by intro he; cases he)

/-! ## Concrete instances used by witnesses and counterexamples -/

/-- A concrete chunk metadata row. -/
def mA : Meta :=
  { doc_id := "tgo.pdf", version_hash := "v1", chunk_id := "1-0", page := 1,
    text := "Section 5 requires storage at 2-8 C.", source := "docs/tgo.pdf",
    clause := some "Section 5" }

/-- A second concrete chunk metadata row with a different chunk key. -/
def mB : Meta :=
  { doc_id := "tgo.pdf", version_hash := "v1", chunk_id := "1-1", page := 1,
    text := "Donors returning from malaria endemic regions are deferred.",
    source := "docs/tgo.pdf", clause := none }

/-- A one-row index consistent with the one-row store `[mA]`. -/
def idxA : FaissIndex := { ntotal := 1, score := fun _ => 0 }

/-- A two-row index consistent with the two-row store `[mA, mB]`. -/
def idxAB : FaissIndex := { ntotal := 2, score := fun _ => 0 }

/-- A two-row index whose best-scoring row is row 1 — inconsistent with the
one-row metadata cache `[mA]`. -/
def idxBig : FaissIndex := { ntotal := 2, score := fun i => (i : Int) }

/-- A constant lexical-score function. -/
def lex0 : List String → List String → Nat → Int := fun _ _ _ => 0

/-- A trivial fitted-vectorizer state. -/
def vec0 : VecState := fun _ => []

/-- A concrete retrieved passage built on `mA`. -/
def pA : RHit := { meta := mA, score := 0, bm25 := 0 }

/-- A backend object whose `compliance_status` is `" Compliant"` (canonical
value surrounded by whitespace). -/
def genWS : GenOut :=
  GenOut.obj
    { compliance_status := some (JStr.str " Compliant"), rationale := some "ok",
      citations := some (CitsVal.arr [CitEntry.dict
        { source := some (JStr.str "doc.pdf"), page := some 1, quote := some "quote" }]),
      violations_or_risks := some ["r"], alternative_suggestions := some ["a"],
      summary_proposal := some "s", human_supervision_required := some false }

/-- A well-formed backend object with the canonical status `"Unclear"`. -/
def gen0 : GenOut :=
  GenOut.obj
    { compliance_status := some (JStr.str "Unclear"), rationale := some "r",
      citations := some (CitsVal.arr [CitEntry.dict
        { source := some (JStr.str "a.pdf"), page := some 2, quote := none }]),
      violations_or_risks := some ["risk"], alternative_suggestions := some ["alt"],
      summary_proposal := some "s", human_supervision_required := some true }

/-- A backend object whose `citations` value is a truthy non-array. -/
def genBadCits : GenOut :=
  GenOut.obj
    { compliance_status := some (JStr.str "Unclear"), rationale := some "r",
      citations := some (CitsVal.nonArr true),
      violations_or_risks := some ["risk"], alternative_suggestions := some ["alt"],
      summary_proposal := some "s", human_supervision_required := some true }

/-- A backend object whose `citations` array holds a non-object entry. -/
def genBadEntry : GenOut :=
  GenOut.obj
    { compliance_status := some (JStr.str "Unclear"), rationale := some "r",
      citations := some (CitsVal.arr [CitEntry.nonDict]),
      violations_or_risks := some ["risk"], alternative_suggestions := some ["alt"],
      summary_proposal := some "s", human_supervision_required := some true }

/-- A backend object with a citation whose `source` is a truthy
non-string. -/
def genBadSrc : GenOut :=
  GenOut.obj
    { compliance_status := some (JStr.str "Unclear"), rationale := some "r",
      citations := some (CitsVal.arr [CitEntry.dict
        { source := some (JStr.nonStr true), page := some 2, quote := none }]),
      violations_or_risks := some ["risk"], alternative_suggestions := some ["alt"],
      summary_proposal := some "s", human_supervision_required := some true }

/-- A backend object whose `compliance_status` is a truthy non-string. -/
def genBadStatus : GenOut :=
  GenOut.obj
    { compliance_status := some (JStr.nonStr true), rationale := some "r",
      citations := some (CitsVal.arr [CitEntry.dict
        { source := some (JStr.str "a.pdf"), page := some 2, quote := none }]),
      violations_or_risks := some ["risk"], alternative_suggestions := some ["alt"],
      summary_proposal := some "s", human_supervision_required := some true }

/-- The record `answer [pA] "q" gen0` evaluates to. -/
def rec0 : AnswerRecord :=
  { compliance_status := some (JStr.str "Unclear"), rationale := some "r",
    citations := [{ source := some (JStr.str "a.pdf"), page := some 2, quote := none }],
    violations_or_risks := ["risk"], alternative_suggestions := ["alt"],
    summary_proposal := some "s", human_supervision_required := true }

/-- The record `answer [] "q" g` evaluates to, for every `g`. -/
def recEmpty : AnswerRecord :=
  { compliance_status := some (JStr.str "Unclear"),
    rationale := some "No index or no matches. Ingest documents first.",
    citations := [],
    violations_or_risks :=
      ["Evidence insufficient; risk of non-compliance if policy deviates from cited clauses."],
    alternative_suggestions :=
      ["Escalate for human review and obtain written confirmation against the cited standard/appendix."],
    summary_proposal := some "Ingest relevant documents and retry; see suggested mitigations.",
    human_supervision_required := true }

/-- A manifest row used by the C6 witness. -/
def recM : ManifestRec :=
  { doc_id := "a.txt", version_hash := "x", created_at := "t0",
    source_kind := "file", path := "p" }

/-- A trivial norm stand-in used by the C10 witness. -/
def norm0 : List ℚ → ℚ := fun _ => 1

/-- An all-empty store state used by the C10 witness. -/
def stEmpty : StoreState := { index_file := none, meta_file := none,
                              index_mem := none, meta_mem := none }

/-! ## Theorems -/

/-- Whenever `statusStrip` returns a string (i.e. `.strip()` did not raise),
the status was not a truthy non-string and the result is the strip of
`statusOrUnclear`. -/
lemma statusStrip_ok_eq (o : Option JStr) (s : String)
    (h : statusStrip o = Except.ok s) :
    o ≠ some (JStr.nonStr true) ∧ s = pyStrip (statusOrUnclear o) := by
  rcases o with _ | j
  · refine ⟨by simp, ?_⟩
    simp only [statusStrip, Except.ok.injEq] at h
    simp [statusOrUnclear, ← h]
  · cases j with
    | str t =>
        refine ⟨by simp, ?_⟩
        simp only [statusStrip, Except.ok.injEq] at h
        simp [statusOrUnclear, ← h]
    | nonStr b =>
        cases b with
        | true => simp [statusStrip] at h
        | false =>
            refine ⟨by simp, ?_⟩
            simp only [statusStrip, if_neg, Bool.false_eq_true, not_false_iff,
              ite_false, Except.ok.injEq] at h
            simp [statusOrUnclear, ← h]

/-- A status that is not a truthy non-string survives `.strip()`. -/
lemma statusStrip_isOk (o : Option JStr) (h : o ≠ some (JStr.nonStr true)) :
    ∃ s, statusStrip o = Except.ok s := by
  rcases o with _ | j
  · exact ⟨_, rfl⟩
  · cases j with
    | str t => exact ⟨_, rfl⟩
    | nonStr b =>
        cases b with
        | true => exact absurd rfl h
        | false => exact ⟨_, rfl⟩

/-- Field facts about any record `answerAssemble` returns: the stored status
is the parsed one, the strip step succeeded on it, the flag is the decide of
the stripped status differing from `"Compliant"`, and the citations are the
citation step's output. -/
lemma answerAssemble_fields (passages : List RHit) (p0 : RHit) (q : String)
    (d : GenData) (r : AnswerRecord)
    (h : answerAssemble passages p0 q d = Except.ok r) :
    r.compliance_status = d.compliance_status ∧
    ∃ s, statusStrip d.compliance_status = Except.ok s ∧
      r.human_supervision_required = decide (s ≠ "Compliant") ∧
      ∃ cs, assembleCitations passages p0 d.citations = Except.ok cs ∧
        r.citations = cs := by
  cases hcit : assembleCitations passages p0 d.citations with
  | error e =>
      simp only [answerAssemble, hcit] at h
      exact Except.noConfusion h
  | ok cs =>
      simp only [answerAssemble, hcit] at h
      cases hst : statusStrip d.compliance_status with
      | error e =>
          simp only [hst] at h
          exact Except.noConfusion h
      | ok s =>
          simp only [hst] at h
          injection h with h
          subst h
          exact ⟨rfl, s, rfl, rfl, cs, rfl, rfl⟩

/-- C1 (counterexample): a backend object whose `compliance_status` is
`" Compliant"` — the canonical value surrounded by whitespace — yields a
record whose stored status is **not** `"Compliant"` while
`human_supervision_required` is `false`, so the claimed invariant
`human_supervision_required == (compliance_status != "Compliant")` fails for
this generation-backend output: `answer` recomputes the flag from the
*stripped* status but stores the status unstripped. -/
theorem answer_supervision_counterexample :
    ((RAGPipeline.answer [pA] "Is storage compliant?" genWS).toOption.map
      (fun r => (r.compliance_status == some (JStr.str "Compliant"),
                 r.human_supervision_required)))
    = some (false, false) := by decide

/-- C1 (amended): for every question, every retrieval result and every
generation-backend output on which `answer` returns a record, the stored
status is never a truthy non-string (those raise before a record is built)
and the flag is recomputed as `strip(status or "Unclear") != "Compliant"`,
overriding whatever the model returned; in particular, whenever the stored
status is one of the three canonical values the claimed invariant
`human_supervision_required == (compliance_status != "Compliant")` holds
exactly as stated. -/
theorem answer_supervision_recomputed (passages : List RHit) (q : String)
    (g : GenOut) (r : AnswerRecord)
    (h : RAGPipeline.answer passages q g = Except.ok r) :
    r.compliance_status ≠ some (JStr.nonStr true) ∧
    r.human_supervision_required
      = decide (pyStrip (statusOrUnclear r.compliance_status) ≠ "Compliant") ∧
    ((r.compliance_status = some (JStr.str "Compliant") ∨
      r.compliance_status = some (JStr.str "Not Compliant") ∨
      r.compliance_status = some (JStr.str "Unclear")) →
      r.human_supervision_required
        = (r.compliance_status != some (JStr.str "Compliant"))) := by
  have hmain : r.compliance_status ≠ some (JStr.nonStr true) ∧
      r.human_supervision_required
        = decide (pyStrip (statusOrUnclear r.compliance_status) ≠ "Compliant") := by
    cases passages with
    | nil =>
        simp only [RAGPipeline.answer] at h
        injection h with h
        subst h
        exact ⟨by simp, rfl⟩
    | cons p ps =>
        have hgen : ∀ D : GenData, answerAssemble (p :: ps) p q D = Except.ok r →
            r.compliance_status ≠ some (JStr.nonStr true) ∧
            r.human_supervision_required
              = decide (pyStrip (statusOrUnclear r.compliance_status) ≠ "Compliant") := by
          intro D hD
          obtain ⟨hcs, s, hs, hh, -⟩ := answerAssemble_fields _ _ _ _ _ hD
          obtain ⟨hnt, hse⟩ := statusStrip_ok_eq _ _ hs
          rw [hcs]
          exact ⟨hnt, by rw [hh, hse]⟩
        cases g with
        | nonObj =>
            simp only [RAGPipeline.answer] at h
            exact Except.noConfusion h
        | notJson raw =>
            simp only [RAGPipeline.answer] at h
            exact hgen _ h
        | obj d =>
            simp only [RAGPipeline.answer] at h
            exact hgen _ h
  refine ⟨hmain.1, hmain.2, ?_⟩
  intro hc
  rcases hc with hc | hc | hc <;> rw [hmain.2, hc] <;> decide

/-- C1 (witness): the amended theorem applied to a concrete passage list and
a well-formed backend object with status `"Unclear"`. -/
theorem answer_supervision_recomputed_witness :
    rec0.compliance_status ≠ some (JStr.nonStr true) ∧
    (rec0.human_supervision_required
      = decide (pyStrip (statusOrUnclear rec0.compliance_status) ≠ "Compliant")) ∧
    rec0.human_supervision_required = (rec0.compliance_status != some (JStr.str "Compliant")) :=
  ⟨(answer_supervision_recomputed [pA] "q" gen0 rec0 (by decide)).1,
   (answer_supervision_recomputed [pA] "q" gen0 rec0 (by decide)).2.1,
   (answer_supervision_recomputed [pA] "q" gen0 rec0 (by decide)).2.2 (by decide)⟩

/-- C2 (counterexample): with non-empty retrieval, `answer` fails to return
any record on many parseable backend outputs: a JSON non-object (e.g. the
text `"[]"`), an object whose `citations` is a truthy non-array (e.g.
`{"citations": "x"}`), a citations array holding a non-object entry (e.g.
`{"citations": [5]}`), a citation whose `source` is a truthy non-string, and
a truthy non-string `compliance_status` — each raises an uncaught
`AttributeError`/`TypeError` instead of yielding a record with citations. -/
theorem answer_citations_counterexample :
    RAGPipeline.answer [pA] "q" GenOut.nonObj
      = Except.error "AttributeError: parsed JSON value is not an object" ∧
    RAGPipeline.answer [pA] "q" genBadCits
      = Except.error "TypeError/AttributeError: citations is a truthy non-array" ∧
    RAGPipeline.answer [pA] "q" genBadEntry
      = Except.error "AttributeError: citation entry is not an object" ∧
    RAGPipeline.answer [pA] "q" genBadSrc
      = Except.error "AttributeError: source value has no rsplit method" ∧
    RAGPipeline.answer [pA] "q" genBadStatus
      = Except.error "AttributeError: compliance_status has no strip method" := by
  refine ⟨by decide, by decide, by decide, by decide, by decide⟩

/-- Every citation `answer` derives mechanically from a passage is a dict
with a string source, so it survives the normalisation loop. -/
lemma all_citeOfPassage_ok (l : List RHit) :
    (l.map (fun p => CitEntry.dict (citeOfPassage p))).all citEntryOk = true := by
  rw [List.all_eq_true]
  intro e he
  rw [List.mem_map] at he
  obtain ⟨p, -, rfl⟩ := he
  simp [citEntryOk, citeOfPassage]

/-- A citation whose source is not a truthy non-string is normalised without
raising. -/
lemma normCitation_ok (fs : String) (fp : Int) (c : Citation)
    (h : c.source ≠ some (JStr.nonStr true)) :
    ∃ c1, normCitation fs fp c = Except.ok c1 := by
  cases hsrc : srcResolve fs c.source with
  | ok src0 =>
      cases hres : normCitation fs fp c with
      | ok c1 => exact ⟨c1, rfl⟩
      | error e =>
          simp only [normCitation, hsrc] at hres
          exact Except.noConfusion hres
  | error e =>
      exfalso
      rcases hs : c.source with _ | j
      · rw [hs] at hsrc; simp [srcResolve] at hsrc
      · cases j with
        | str t => rw [hs] at hsrc; simp [srcResolve] at hsrc
        | nonStr b =>
            cases b with
            | true => exact h (by rw [hs])
            | false => rw [hs] at hsrc; simp [srcResolve] at hsrc

/-- A citations array all of whose entries survive is normalised without
raising, preserving its length. -/
lemma normCitations_ok (fs : String) (fp : Int) :
    ∀ cs : List CitEntry, cs.all citEntryOk = true →
      ∃ out, normCitations fs fp cs = Except.ok out ∧ out.length = cs.length := by
  intro cs
  induction cs with
  | nil => intro _; exact ⟨[], rfl, rfl⟩
  | cons e es ih =>
      intro hall
      simp only [List.all_cons, Bool.and_eq_true] at hall
      cases e with
      | nonDict => simp [citEntryOk] at hall
      | dict c =>
          have hsrc : c.source ≠ some (JStr.nonStr true) := by
            have h1 := hall.1
            simpa [citEntryOk, bne_iff_ne] using h1
          obtain ⟨c1, hc1⟩ := normCitation_ok fs fp c hsrc
          obtain ⟨out, hout, hlen⟩ := ih hall.2
          refine ⟨c1 :: out, ?_, by simp [hlen]⟩
          simp only [normCitations, hc1, hout]

/-- With non-empty passages, a survivable `citations` value yields a
non-empty normalised citations list: falsy values are backfilled from the
top passages, arrays are normalised length-preservingly. -/
lemma assembleCitations_ok (p0 : RHit) (ps : List RHit) (cits : Option CitsVal)
    (hok : citsOk cits = true) :
    ∃ out, assembleCitations (p0 :: ps) p0 cits = Except.ok out ∧ out ≠ [] := by
  have hback : ((p0 :: ps).take 3).map citeOfPassage ≠ [] := by
    simp [List.take_succ_cons]
  cases cits with
  | none => exact ⟨_, rfl, hback⟩
  | some v =>
      cases v with
      | nonArr t =>
          cases t with
          | true => simp [citsOk] at hok
          | false => exact ⟨_, rfl, hback⟩
      | arr cs =>
          cases cs with
          | nil => exact ⟨_, rfl, hback⟩
          | cons e es =>
              have hall : (e :: es).all citEntryOk = true := by
                simpa [citsOk] using hok
              obtain ⟨out, hout, hlen⟩ := normCitations_ok _ _ (e :: es) hall
              refine ⟨out, ?_, ?_⟩
              · simpa [assembleCitations] using hout
              · intro hc
                rw [hc] at hlen
                simp at hlen

/-- C2 (amended): whenever retrieval is non-empty, `answer` returns a record
and its citations list is non-empty (mechanically backfilled from the top
retrieved passages when the model supplied none) for every backend output
that survives the assembler: output that fails to parse as JSON, and output
parsing to a JSON object whose `citations` value is absent, falsy or an
array of objects none of which carries a truthy non-string source, and whose
`compliance_status` is not a truthy non-string.  All other outputs (JSON
non-objects, truthy non-array citations, non-object citation entries, truthy
non-string sources or statuses) instead raise an uncaught
`AttributeError`/`TypeError` and return no record. -/
theorem answer_citations_nonempty (passages : List RHit) (q : String) (g : GenOut)
    (hne : passages ≠ []) (hok : genOk g = true) :
    (RAGPipeline.answer passages q g).isOk = true ∧
    ∀ r, RAGPipeline.answer passages q g = Except.ok r → r.citations ≠ [] := by
  cases passages with
  | nil => exact absurd rfl hne
  | cons p ps =>
      have key : ∀ D : GenData, citsOk D.citations = true →
          D.compliance_status ≠ some (JStr.nonStr true) →
          (answerAssemble (p :: ps) p q D).isOk = true ∧
          ∀ r, answerAssemble (p :: ps) p q D = Except.ok r → r.citations ≠ [] := by
        intro D hc hs
        obtain ⟨out, hout, hne2⟩ := assembleCitations_ok p ps D.citations hc
        obtain ⟨s, hss⟩ := statusStrip_isOk D.compliance_status hs
        constructor
        · simp only [answerAssemble, hout, hss]
          rfl
        · intro r hr
          simp only [answerAssemble, hout, hss] at hr
          injection hr with hr
          subst hr
          exact hne2
      cases g with
      | nonObj => simp [genOk] at hok
      | notJson raw =>
          have hc : citsOk (fallbackData (p :: ps) raw).citations = true := by
            simpa [fallbackData, citsOk] using all_citeOfPassage_ok ((p :: ps).take 4)
          have hs : (fallbackData (p :: ps) raw).compliance_status
              ≠ some (JStr.nonStr true) := by
            simp [fallbackData]
          simpa only [RAGPipeline.answer] using key (fallbackData (p :: ps) raw) hc hs
      | obj d =>
          simp only [genOk, Bool.and_eq_true, bne_iff_ne] at hok
          simpa only [RAGPipeline.answer] using key d hok.1 hok.2

/-- C2 (witness): the amended theorem at a concrete passage list and a
well-formed backend object. -/
theorem answer_citations_nonempty_witness :
    (RAGPipeline.answer [pA] "q" gen0).isOk = true ∧ rec0.citations ≠ [] :=
  ⟨(answer_citations_nonempty [pA] "q" gen0 (by decide) (by decide)).1,
   (answer_citations_nonempty [pA] "q" gen0 (by decide) (by decide)).2 rec0 (by decide)⟩

/-- C3: when retrieval is empty, `answer` never consults the generation
backend (its result is literally independent of the backend output) and
returns the deterministic record with status `"Unclear"`, empty citations,
`human_supervision_required = true`, and the keyword-rule-table risk and
mitigation lists, which are non-empty for every question thanks to the
generic fallback entries. -/
theorem answer_empty_retrieval_deterministic (q : String) (g : GenOut) :
    RAGPipeline.answer [] q g = Except.ok
      { compliance_status := some (JStr.str "Unclear"),
        rationale := some "No index or no matches. Ingest documents first.",
        citations := [],
        violations_or_risks := (_backfill_risks_suggestions q).1,
        alternative_suggestions := (_backfill_risks_suggestions q).2,
        summary_proposal := some "Ingest relevant documents and retry; see suggested mitigations.",
        human_supervision_required := true } ∧
    RAGPipeline.answer [] q g = RAGPipeline.answer [] q (GenOut.notJson "") ∧
    (_backfill_risks_suggestions q).1 ≠ [] ∧
    (_backfill_risks_suggestions q).2 ≠ [] := by
  refine ⟨rfl, rfl, ?_, ?_⟩ <;>
    · simp only [_backfill_risks_suggestions]
      cases h1 : _temp_trigger (strLower q) <;>
        cases h2 : _malaria_trigger (strLower q) <;> simp [h1, h2]

/-- C6: content hashing is deterministic by construction, and registration of
unchanged content is idempotent: when the manifest already holds the hash of
the text under this `doc_id`, the scan appends nothing and reports
`is_new = false`; and whatever the first run did, a second run over the same
unchanged text leaves the manifest row count unchanged. -/
theorem register_unchanged_idempotent (hash : String → String)
    (m : List ManifestRec) (d t n1 n2 p1 p2 : String) :
    (hasVersion m d (hash t) = true → scanRegister hash m d t n1 p1 = (m, false)) ∧
    (scanRegister hash (scanRegister hash m d t n1 p1).1 d t n2 p2).1.length
      = (scanRegister hash m d t n1 p1).1.length := by
  constructor
  · intro h
    simp [scanRegister, h]
  · cases hv : hasVersion m d (hash t) with
    | true => simp [scanRegister, hv]
    | false =>
        have hafter : hasVersion
            (m ++ [{ doc_id := d, version_hash := hash t, created_at := n1,
                     source_kind := "file", path := p1 }]) d (hash t) = true := by
          simp [hasVersion, List.any_append]
        simp [scanRegister, hv, hafter]

/-- C6 (witness): re-registering a text whose hash is already in the manifest
appends nothing, at a concrete manifest and hash function. -/
theorem register_unchanged_idempotent_witness :
    (scanRegister (fun s => s) [recM] "a.txt" "x" "t1" "p" = ([recM], false)) ∧
    (scanRegister (fun s => s)
        (scanRegister (fun s => s) [recM] "a.txt" "x" "t1" "p").1
        "a.txt" "x" "t2" "p").1.length
      = (scanRegister (fun s => s) [recM] "a.txt" "x" "t1" "p").1.length :=
  ⟨(register_unchanged_idempotent (fun s => s) [recM] "a.txt" "x" "t1" "t2" "p" "p").1
      (by decide),
   (register_unchanged_idempotent (fun s => s) [recM] "a.txt" "x" "t1" "t2" "p" "p").2⟩

/-- C8 (counterexample): with no fitted vectorizer but a populated dense
store, a `retrieve` call returns the empty list as a normal value — it does
not fail with the NotReady-style error, contrary to the claim. -/
theorem retrieve_unfitted_counterexample :
    RAGPipeline.retrieve none (some idxA) [mA] lex0 "q" 6 = Except.ok [] := by decide

/-- C8 (amended): `TFIDFEmbedder.transform` does fail with the NotReady-style
`RuntimeError` when called before any fit, but `RAGPipeline.retrieve` guards
on the unfitted vectorizer and silently returns the empty list — for every
store state and question — without ever surfacing that error. -/
theorem retrieve_unfitted_silent :
    (∀ texts, TFIDFEmbedder.transform none texts
      = Except.error "TFIDF vectorizer not loaded; run ingest.py first.") ∧
    (∀ (index : Option FaissIndex) (metaCache : List Meta)
        (lex : List String → List String → Nat → Int) (q : String) (k : Nat),
      RAGPipeline.retrieve none index metaCache lex q k = Except.ok []) :=
  ⟨fun _ => rfl, fun _ _ _ _ _ => rfl⟩

/-- C9 (counterexample): an index file present alongside a metadata file
whose rows all fail to parse — or alongside a missing metadata file — is
served silently: `_load_meta` skips every bad row and `search` quietly
returns the empty list, with no fatal error, contrary to the claim. -/
theorem search_corrupt_counterexample :
    FAISSStore.loadMeta (fun _ => none) (some ["garbage line", "more garbage"]) = [] ∧
    FAISSStore.search (some idxA)
      (FAISSStore.loadMeta (fun _ => none) (some ["garbage line"])) 5 = Except.ok [] ∧
    FAISSStore.search (some idxA) (FAISSStore.loadMeta (fun _ => none) none) 5
      = Except.ok [] := by
  refine ⟨by decide, by decide, by decide⟩

/-- C9 (amended): an inconsistent index/metadata pair is never detected as
such.  When the metadata side loads empty (missing file, or every row
unparseable) or the index file is missing, `search` silently returns the
empty list; and when the index holds more rows than the loaded metadata,
`search` can instead raise an uncaught `IndexError` looking the returned row
up in the metadata cache.  Neither path is the deliberate fatal
persistence-corruption check the claim describes. -/
theorem search_corrupt_not_fatal (parse : String → Option Meta)
    (lines : List String) (idx : FaissIndex) (m : List Meta) (k : Nat)
    (hbad : ∀ l ∈ lines, parse (pyStrip l) = none) :
    FAISSStore.search (some idx) (FAISSStore.loadMeta parse (some lines)) k
      = Except.ok [] ∧
    FAISSStore.search (some idx) (FAISSStore.loadMeta parse none) k = Except.ok [] ∧
    FAISSStore.search none m k = Except.ok [] ∧
    FAISSStore.search (some idxBig) [mA] 1
      = Except.error "IndexError: list index out of range" := by
  have hload : FAISSStore.loadMeta parse (some lines) = [] := by
    simp only [FAISSStore.loadMeta]
    rw [List.filterMap_eq_nil_iff]
    intro l hl
    by_cases he : pyStrip l = "" <;> simp [he, hbad l hl]
  exact ⟨by simp [hload, FAISSStore.search], rfl, rfl, by decide⟩

/-- C9 (witness): the amended theorem at a concrete corrupt metadata file and
a concrete oversized index. -/
theorem search_corrupt_not_fatal_witness :
    FAISSStore.search (some idxA)
      (FAISSStore.loadMeta (fun _ => none) (some ["bad row"])) 3 = Except.ok [] ∧
    FAISSStore.search (some idxA) (FAISSStore.loadMeta (fun _ => none) none) 3
      = Except.ok [] ∧
    FAISSStore.search none [mA] 3 = Except.ok [] ∧
    FAISSStore.search (some idxBig) [mA] 1
      = Except.error "IndexError: list index out of range" :=
  search_corrupt_not_fatal (fun _ => none) ["bad row"] idxA [mA] 3 (by simp)

/-- C10: `build` reports the `ValueError` exactly when the metadata length
differs from the number of vector rows, in which case no file and no cache is
touched; when the lengths match it persists the normalized index and the
metadata together, with equal row counts. -/
theorem build_length_guard (norm : List ℚ → ℚ) (st : StoreState)
    (vectors : List (List ℚ)) (meta : List Meta) :
    ((FAISSStore.build norm st vectors meta).2.isSome = true
      ↔ meta.length ≠ vectors.length) ∧
    (meta.length ≠ vectors.length → (FAISSStore.build norm st vectors meta).1 = st) ∧
    (meta.length = vectors.length →
      (FAISSStore.build norm st vectors meta).1.meta_file = some meta ∧
      (FAISSStore.build norm st vectors meta).1.index_file
        = some (_l2_normalize norm vectors) ∧
      (_l2_normalize norm vectors).length = meta.length) := by
  by_cases h : meta.length = vectors.length <;>
    simp [FAISSStore.build, _l2_normalize, h]

/-- C10 (witness): the guard applied to a concrete mismatched pair (state
untouched) and to a concrete matching pair (files persisted together with
equal row counts). -/
theorem build_length_guard_witness :
    ((FAISSStore.build norm0 stEmpty [[1]] [mA, mB]).1 = stEmpty) ∧
    ((FAISSStore.build norm0 stEmpty [[1], [2]] [mA, mB]).1.meta_file = some [mA, mB] ∧
     (FAISSStore.build norm0 stEmpty [[1], [2]] [mA, mB]).1.index_file
       = some (_l2_normalize norm0 [[1], [2]]) ∧
     (_l2_normalize norm0 [[1], [2]]).length = [mA, mB].length) :=
  ⟨(build_length_guard norm0 stEmpty [[1]] [mA, mB]).2.1 (by decide),
   (build_length_guard norm0 stEmpty [[1], [2]] [mA, mB]).2.2 (by decide)⟩

lemma insertDesc_perm (s : List Int) (i : Nat) (l : List Nat) :
    (insertDesc s i l).Perm (i :: l) := by
  induction l with
  | nil => simp [insertDesc]
  | cons j rest ih =>
      simp only [insertDesc]
      split
      · exact List.Perm.refl _
      · exact ((ih).cons j).trans (List.Perm.swap i j rest)

lemma foldl_insertDesc_perm (s : List Int) :
    ∀ (xs acc : List Nat),
      (xs.foldl (fun a i => insertDesc s i a) acc).Perm (xs ++ acc) := by
  intro xs
  induction xs with
  | nil => intro acc; simp
  | cons x xs ih =>
      intro acc
      simp only [List.foldl_cons]
      exact ((ih (insertDesc s x acc)).trans
        (List.Perm.append_left xs (insertDesc_perm s x acc))).trans
        List.perm_middle

lemma argsort_perm (s : List Int) :
    (npArgsortDesc s).Perm (List.range s.length) := by
  simpa using foldl_insertDesc_perm s (List.range s.length) []

lemma argsort_nodup (s : List Int) : (npArgsortDesc s).Nodup :=
  (argsort_perm s).nodup_iff.mpr (List.nodup_range _)

lemma argsort_mem_lt (s : List Int) : ∀ i ∈ npArgsortDesc s, i < s.length := by
  intro i hi
  exact List.mem_range.mp ((argsort_perm s).mem_iff.mp hi)

lemma nodup_map_pick {α β : Type _} [Inhabited α] (l : List α) (f : α → β)
    (idxs : List Nat) (hN : (l.map f).Nodup) (hI : idxs.Nodup)
    (hlt : ∀ i ∈ idxs, i < l.length) :
    (idxs.map (fun i => f (l[i]!))).Nodup := by
  refine hI.map_on ?_
  intro i hi j hj hfe
  have hi' := hlt i hi
  have hj' := hlt j hj
  rw [getElem!_pos l i hi', getElem!_pos l j hj'] at hfe
  have hi'' : i < (l.map f).length := by simpa using hi'
  have hj'' : j < (l.map f).length := by simpa using hj'
  have : (l.map f)[i] = (l.map f)[j] := by
    simpa using hfe
  exact (hN.getElem_inj_iff).mp this

/-- A successful metadata-collection loop means every returned row index was
within the cache, and the output is the corresponding rows in order. -/
lemma collectHits_ok (metaCache : List Meta) (scores : List Int) :
    ∀ (idxs : List Nat) (out : List SHit),
      collectHits metaCache scores idxs = Except.ok out →
      (∀ i ∈ idxs, i < metaCache.length) ∧
      out = idxs.map (fun i => { meta := metaCache[i]!, score := scores.getD i 0 }) := by
  intro idxs
  induction idxs with
  | nil =>
      intro out h
      injection h with h
      subst h
      exact ⟨by simp, rfl⟩
  | cons i rest ih =>
      intro out h
      simp only [collectHits] at h
      by_cases hlt : i < metaCache.length
      · rw [if_pos hlt] at h
        cases hrec : collectHits metaCache scores rest with
        | error e =>
            rw [hrec] at h
            exact Except.noConfusion h
        | ok out' =>
            rw [hrec] at h
            injection h with h
            subst h
            obtain ⟨hb, he⟩ := ih out' hrec
            refine ⟨?_, by rw [List.map_cons, ← he]⟩
            intro j hj
            rcases List.mem_cons.mp hj with hj | hj
            · omega
            · exact hb j hj
      · rw [if_neg hlt] at h
        exact Except.noConfusion h

/-- Any hit list a successful `search` returns has pairwise-distinct
`(doc_id, version_hash, chunk_id)` keys whenever the metadata cache does. -/
lemma search_key_nodup (index : Option FaissIndex) (metaCache : List Meta)
    (k : Nat) (hits : List SHit)
    (hs : FAISSStore.search index metaCache k = Except.ok hits)
    (hN : (metaCache.map chunkKey).Nodup) :
    (hits.map (fun h => chunkKey h.meta)).Nodup := by
  cases index with
  | none =>
      simp only [FAISSStore.search] at hs
      injection hs with hs
      subst hs
      simp
  | some idx =>
      by_cases hm : metaCache = []
      · simp only [FAISSStore.search, if_pos hm] at hs
        injection hs with hs
        subst hs
        simp
      · simp only [FAISSStore.search, if_neg hm] at hs
        obtain ⟨hbound, hout⟩ := collectHits_ok _ _ _ _ hs
        subst hout
        rw [List.map_map]
        refine nodup_map_pick metaCache (fun m => chunkKey m) _ hN ?_ hbound
        exact (List.take_sublist _ _).nodup (argsort_nodup _)

/-- C4: `retrieve` returns at most `top_k` results; when the metadata keys
`(doc_id, version_hash, chunk_id)` of the store are pairwise distinct (as
ingestion guarantees for the rows it writes) no two results share a key; and
an empty dense store — no loaded index or an empty metadata cache — yields
the empty list as a normal value, not an error. -/
theorem retrieve_bounded_dedup (vec : Option VecState) (index : Option FaissIndex)
    (metaCache : List Meta) (lex : List String → List String → Nat → Int)
    (q : String) (k : Nat) (_hk : 1 ≤ k) :
    (∀ hits, RAGPipeline.retrieve vec index metaCache lex q k = Except.ok hits →
      hits.length ≤ k ∧
      ((metaCache.map chunkKey).Nodup →
        (hits.map (fun h => chunkKey h.meta)).Nodup)) ∧
    (metaCache = [] → RAGPipeline.retrieve vec index metaCache lex q k = Except.ok []) ∧
    (index = none → RAGPipeline.retrieve vec index metaCache lex q k = Except.ok []) := by
  cases vec with
  | none =>
      refine ⟨?_, fun _ => rfl, fun _ => rfl⟩
      intro hits h
      injection h with h
      subst h
      simp
  | some v =>
      refine ⟨?_, ?_, ?_⟩
      · intro hits h
        simp only [RAGPipeline.retrieve, TFIDFEmbedder.transform] at h
        cases hs : FAISSStore.search index metaCache (k * 2) with
        | error e =>
            rw [hs] at h
            exact Except.noConfusion h
        | ok dense_hits =>
            rw [hs] at h
            simp only [] at h
            by_cases hd : dense_hits = []
            · rw [if_pos hd] at h
              injection h with h
              subst h
              simp
            · rw [if_neg hd] at h
              injection h with h
              subst h
              constructor
              · simp [List.length_take]
              · intro hN
                rw [List.map_map]
                have hsearch := search_key_nodup index metaCache (k * 2) dense_hits hs hN
                refine nodup_map_pick dense_hits (fun h => chunkKey h.meta) _ hsearch ?_ ?_
                · exact (List.take_sublist _ _).nodup (argsort_nodup _)
                · intro i hi
                  have := argsort_mem_lt _ i (List.mem_of_mem_take hi)
                  simp at this
                  omega
      · intro hm
        subst hm
        cases index <;> rfl
      · intro hi
        subst hi
        rfl

/-- C4 (witness): the bounded/deduplicated-retrieval theorem applied to a
concrete fitted pipeline over a two-row store with `top_k = 1`, and to a
concrete empty store. -/
theorem retrieve_bounded_dedup_witness :
    ([pA].length ≤ 1 ∧ ([pA].map (fun h => chunkKey h.meta)).Nodup) ∧
    RAGPipeline.retrieve (some vec0) (some idxAB) [] lex0 "q" 1 = Except.ok [] :=
  ⟨⟨((retrieve_bounded_dedup (some vec0) (some idxAB) [mA, mB] lex0 "q" 1
        (by decide)).1 [pA] (by decide)).1,
    ((retrieve_bounded_dedup (some vec0) (some idxAB) [mA, mB] lex0 "q" 1
        (by decide)).1 [pA] (by decide)).2 (by decide)⟩,
   (retrieve_bounded_dedup (some vec0) (some idxAB) [] lex0 "q" 1 (by decide)).2.1 rfl⟩

lemma chunkWindows_cover (words : List String) (mt ov : Nat) (hmt : 1 ≤ mt) :
    ∀ (n i j : Nat), words.length - i ≤ n → i ≤ j → j < words.length →
      (chunkWindows words mt ov i).any (fun c => c.contains (words[j]!)) = true := by
  have hstep1 : 1 ≤ max 1 (mt - ov) := Nat.le_max_left _ _
  have hstep2 : max 1 (mt - ov) ≤ mt := Nat.max_le.mpr ⟨hmt, Nat.sub_le mt ov⟩
  intro n
  induction n with
  | zero => intro i j h hij hj; omega
  | succ n ih =>
      intro i j hn hij hj
      have hi : i < words.length := Nat.lt_of_le_of_lt hij hj
      rw [chunkWindows, dif_pos hi]
      have hlen : ((words.drop i).take mt).length = min mt (words.length - i) := by
        simp
      have hne : ¬ ((words.drop i).take mt = []) := by
        intro hc
        rw [hc] at hlen
        simp at hlen
        omega
      rw [if_neg hne]
      by_cases hcase : j < i + mt
      · have hji : j - i < ((words.drop i).take mt).length := by
          rw [hlen]; omega
        have helem : ((words.drop i).take mt)[j - i] = words[j] := by
          rw [List.getElem_take, List.getElem_drop]
          congr 1
          omega
        have hmem : words[j]! ∈ (words.drop i).take mt := by
          rw [getElem!_pos words j hj, ← helem]
          exact List.getElem_mem hji
        simp only [List.any_cons, Bool.or_eq_true]
        left
        simpa using hmem
      · have hrec := ih (i + max 1 (mt - ov)) j (by omega) (by omega) hj
        simp only [List.any_cons, Bool.or_eq_true]
        right
        exact hrec

/-- C5: for every text and all parameters with `overlap < max_tokens`, every
whitespace token of the input appears in at least one chunk window (the
windows `split_into_chunks` joins into its returned chunks), and empty input
yields an empty sequence.  Termination for *all* parameter values — including
`overlap ≥ max_tokens` — is established by the definition of `chunkWindows`
itself, whose termination measure decreases exactly because the step
`max 1 (max_tokens - overlap)` is at least 1. -/
theorem split_terminates_covers (text : String) (mt ov : Nat) (hov : ov < mt) :
    (pysplit text).all
      (fun w => (chunkWindows (pysplit text) mt ov 0).any (fun c => c.contains w))
      = true ∧
    split_into_chunks text mt ov
      = (chunkWindows (pysplit text) mt ov 0).map (fun c => joinSep " " c) ∧
    split_into_chunks "" mt ov = [] ∧
    _split_into_chunks "" mt ov = [] := by
  have hempty : chunkWindows ([] : List String) mt ov 0 = [] := by
    rw [chunkWindows]
    simp
  refine ⟨?_, rfl, ?_, ?_⟩
  · rw [List.all_eq_true]
    intro w hw
    obtain ⟨j, hj, hw⟩ := List.mem_iff_getElem.mp hw
    have hjw : (pysplit text)[j]! = w := by rw [getElem!_pos (pysplit text) j hj, hw]
    simp only [← hjw]
    exact chunkWindows_cover (pysplit text) mt ov (by omega)
      (pysplit text).length 0 j (by omega) (by omega) hj
  · have h0 : pysplit "" = [] := rfl
    simp [split_into_chunks, h0, hempty]
  · have h0 : pysplit "" = [] := rfl
    simp [_split_into_chunks, h0, hempty]

/-- C5 (witness): the coverage theorem applied to a concrete text and
parameters. -/
theorem split_terminates_covers_witness :
    (pysplit "alpha beta gamma").all
      (fun w => (chunkWindows (pysplit "alpha beta gamma") 2 1 0).any
        (fun c => c.contains w)) = true ∧
    split_into_chunks "alpha beta gamma" 2 1
      = (chunkWindows (pysplit "alpha beta gamma") 2 1 0).map (fun c => joinSep " " c) ∧
    split_into_chunks "" 2 1 = [] ∧
    _split_into_chunks "" 2 1 = [] :=
  split_terminates_covers "alpha beta gamma" 2 1 (by decide)
